import Mathlib

/-
Shallow embedding of src/src/raw.rs (the raw key-value request layer of
client-rust): the operation builders, their constructors on `Client`, the
column-family selector, and the associated `Item`/`Error` types each
`impl Future` block declares.  The `poll` bodies in the source are all
`unimplemented!()`, so the dispatch-time resolution semantics (what an
awaited operation yields against a store) are modelled from the spec where
a claim needs them; those definitions say so in their doc comments.
Keys, values and key references are byte sequences, modelled as `List Nat`,
ordered byte-wise (lexicographically).
-/

namespace TikvRaw

/-- An owned key: a byte sequence (crate-root type, used by `raw.rs`). -/
abbrev Key := List Nat

/-- An owned value: a byte sequence (crate-root type, used by `raw.rs`). -/
abbrev Value := List Nat

/-- A borrowed byte-sequence view of a key; the borrow itself is a Rust
lifetime artifact, the data is the same byte sequence. -/
abbrev KeyRef := List Nat

/-- A key/value pair (crate-root type, used by `raw.rs`). -/
structure KvPair where
  key : Key
  value : Value
  deriving DecidableEq

/-- Embeds `pub struct ColumnFamily(String)`. -/
structure ColumnFamily where
  name : String
  deriving DecidableEq

/-- Embeds `impl<T: ToString> From<T> for ColumnFamily` at a string input:
`ColumnFamily(i.to_string())`, which for a string stores it verbatim. -/
def ColumnFamily.fromString (s : String) : ColumnFamily :=
  ColumnFamily.mk (toString s)

/-- Cluster configuration (crate-root type; only carried through `Connect`). -/
structure Config where
  endpoints : List String
  deriving DecidableEq

/-- Embeds `pub struct Client;` (a unit struct; connection state is out of
scope of raw.rs, the dispatcher owns it). -/
structure Client where
  deriving DecidableEq

/-- Embeds `std::ops::Bound` as used through the `RangeBounds` argument of
`scan`, `batch_scan` and `delete_range`. -/
inductive Bound where
  | Included (k : Key)
  | Excluded (k : Key)
  | Unbounded
  deriving DecidableEq

/-- A start/end bound pair, the data content of a `RangeBounds<KeyRef>`
value (`start_bound`/`end_bound` in Rust). -/
structure KeyRange where
  start_bound : Bound
  end_bound : Bound
  deriving DecidableEq

/-- Whether a key lies within the bound pair, each side honoring its own
inclusive/exclusive/unbounded tag (`RangeBounds::contains`). -/
def KeyRange.contains (r : KeyRange) (k : Key) : Bool :=
  (match r.start_bound with
    | Bound.Included a => decide (a ≤ k)
    | Bound.Excluded a => decide (a < k)
    | Bound.Unbounded => true)
  &&
  (match r.end_bound with
    | Bound.Included b => decide (k ≤ b)
    | Bound.Excluded b => decide (k < b)
    | Bound.Unbounded => true)

/-- The key iterator `batch_get` and `batch_delete` store: the adapter
`keys.into_iter().map(Into::into)` holding its source sequence, with no
element consumed and nothing collected at construction time. -/
structure MapIter where
  source : List Key
  deriving DecidableEq

/-- An input item accepted by `batch_put` (`impl Into<KvPair>`): a
key/value tuple or an already-built pair; the `From` impls live outside
raw.rs and are modelled as the evident injections. -/
inductive PairLike where
  | tuple (k : Key) (v : Value)
  | kv (p : KvPair)
  deriving DecidableEq

/-- The `Into::into` conversion of a `PairLike` item to a `KvPair`. -/
def PairLike.intoKvPair : PairLike → KvPair
  | PairLike.tuple k v => KvPair.mk k v
  | PairLike.kv p => p

/-- `std::u32::MAX`, the default limit of `scan` and `batch_scan`. -/
def u32MAX : Nat := 4294967295

/-- Tags for the associated `Item`/`Error` types the `impl Future` blocks
of raw.rs declare. -/
inductive AssocType where
  | unitT
  | valueT
  | errorT
  | clientT
  | vecKvPairT
  deriving DecidableEq

/-- Embeds `pub struct Get` (the `PhantomData`-free fields). -/
structure Get where
  client : Client
  key : KeyRef
  cf : Option ColumnFamily
  deriving DecidableEq

/-- Embeds `Get::new`. -/
def Get.new (client : Client) (key : KeyRef) : Get :=
  Get.mk client key none

/-- Embeds the setter `Get::cf` (renamed: the field projection already
takes the name `cf`); `self.cf = Some(cf.into())`. -/
def Get.set_cf (g : Get) (s : String) : Get :=
  { g with cf := some (ColumnFamily.fromString s) }

/-- `impl Future for Get` declares `type Item = Value`. -/
def Get.futureItem : AssocType := AssocType.valueT

/-- `impl Future for Get` declares `type Error = Error`. -/
def Get.futureError : AssocType := AssocType.errorT

/-- Embeds `pub struct BatchGet`. -/
structure BatchGet where
  client : Client
  keys : MapIter
  cf : Option ColumnFamily
  deriving DecidableEq

/-- Embeds `BatchGet::new`. -/
def BatchGet.new (client : Client) (keys : MapIter) : BatchGet :=
  BatchGet.mk client keys none

/-- Embeds the setter `BatchGet::cf`. -/
def BatchGet.set_cf (b : BatchGet) (s : String) : BatchGet :=
  { b with cf := some (ColumnFamily.fromString s) }

/-- `impl Future for BatchGet` declares `type Item = ()`. -/
def BatchGet.futureItem : AssocType := AssocType.unitT

/-- `impl Future for BatchGet` declares `type Error = ()`. -/
def BatchGet.futureError : AssocType := AssocType.unitT

/-- Embeds `pub struct Put`. -/
structure Put where
  client : Client
  key : Key
  value : Value
  cf : Option ColumnFamily
  deriving DecidableEq

/-- Embeds `Put::new`. -/
def Put.new (client : Client) (key : Key) (value : Value) : Put :=
  Put.mk client key value none

/-- Embeds the setter `Put::cf`. -/
def Put.set_cf (p : Put) (s : String) : Put :=
  { p with cf := some (ColumnFamily.fromString s) }

/-- `impl Future for Put` declares `type Item = ()`. -/
def Put.futureItem : AssocType := AssocType.unitT

/-- `impl Future for Put` declares `type Error = ()`. -/
def Put.futureError : AssocType := AssocType.unitT

/-- Embeds `pub struct BatchPut`: the pairs are a materialized `Vec<KvPair>`. -/
structure BatchPut where
  client : Client
  pairs : List KvPair
  cf : Option ColumnFamily
  deriving DecidableEq

/-- Embeds `BatchPut::new`. -/
def BatchPut.new (client : Client) (pairs : List KvPair) : BatchPut :=
  BatchPut.mk client pairs none

/-- Embeds the setter `BatchPut::cf`. -/
def BatchPut.set_cf (b : BatchPut) (s : String) : BatchPut :=
  { b with cf := some (ColumnFamily.fromString s) }

/-- `impl Future for BatchPut` declares `type Item = ()`. -/
def BatchPut.futureItem : AssocType := AssocType.unitT

/-- `impl Future for BatchPut` declares `type Error = ()`. -/
def BatchPut.futureError : AssocType := AssocType.unitT

/-- Embeds `pub struct Delete`. -/
structure Delete where
  client : Client
  key : KeyRef
  cf : Option ColumnFamily
  deriving DecidableEq

/-- Embeds `Delete::new`. -/
def Delete.new (client : Client) (key : KeyRef) : Delete :=
  Delete.mk client key none

/-- Embeds the setter `Delete::cf`. -/
def Delete.set_cf (d : Delete) (s : String) : Delete :=
  { d with cf := some (ColumnFamily.fromString s) }

/-- `impl Future for Delete` declares `type Item = ()`. -/
def Delete.futureItem : AssocType := AssocType.unitT

/-- `impl Future for Delete` declares `type Error = ()`. -/
def Delete.futureError : AssocType := AssocType.unitT

/-- Embeds `pub struct BatchDelete`. -/
structure BatchDelete where
  client : Client
  keys : MapIter
  cf : Option ColumnFamily
  deriving DecidableEq

/-- Embeds `BatchDelete::new`. -/
def BatchDelete.new (client : Client) (keys : MapIter) : BatchDelete :=
  BatchDelete.mk client keys none

/-- Embeds the setter `BatchDelete::cf`. -/
def BatchDelete.set_cf (b : BatchDelete) (s : String) : BatchDelete :=
  { b with cf := some (ColumnFamily.fromString s) }

/-- `impl Future for BatchDelete` declares `type Item = ()`. -/
def BatchDelete.futureItem : AssocType := AssocType.unitT

/-- `impl Future for BatchDelete` declares `type Error = ()`. -/
def BatchDelete.futureError : AssocType := AssocType.unitT

/-- Embeds `pub struct Scan` (the `PhantomData` range marker is skipped:
it carries no data). -/
structure Scan where
  client : Client
  range : KeyRange
  limit : Nat
  key_only : Bool
  cf : Option ColumnFamily
  reverse : Bool
  deriving DecidableEq

/-- Embeds `Scan::new`: `key_only`, `reverse` default to `false`, `cf` to
`None`. -/
def Scan.new (client : Client) (range : KeyRange) (limit : Nat) : Scan :=
  Scan.mk client range limit false none false

/-- Embeds the setter `Scan::key_only`: `self.key_only = true`. -/
def Scan.set_key_only (s : Scan) : Scan :=
  { s with key_only := true }

/-- Embeds the setter `Scan::cf`. -/
def Scan.set_cf (sc : Scan) (s : String) : Scan :=
  { sc with cf := some (ColumnFamily.fromString s) }

/-- Embeds the setter `Scan::reverse`: `self.reverse = true`. -/
def Scan.set_reverse (s : Scan) : Scan :=
  { s with reverse := true }

/-- `impl Future for Scan` declares `type Item = Vec<KvPair>`. -/
def Scan.futureItem : AssocType := AssocType.vecKvPairT

/-- `impl Future for Scan` declares `type Error = ()`. -/
def Scan.futureError : AssocType := AssocType.unitT

/-- Embeds `pub struct BatchScan` (the iterator of ranges is modelled as
its underlying sequence; the `PhantomData` marker is skipped). -/
structure BatchScan where
  client : Client
  ranges : List KeyRange
  each_limit : Nat
  key_only : Bool
  cf : Option ColumnFamily
  reverse : Bool
  deriving DecidableEq

/-- Embeds `BatchScan::new`. -/
def BatchScan.new (client : Client) (ranges : List KeyRange) (each_limit : Nat) :
    BatchScan :=
  BatchScan.mk client ranges each_limit false none false

/-- Embeds the setter `BatchScan::key_only`. -/
def BatchScan.set_key_only (b : BatchScan) : BatchScan :=
  { b with key_only := true }

/-- Embeds the setter `BatchScan::cf`. -/
def BatchScan.set_cf (b : BatchScan) (s : String) : BatchScan :=
  { b with cf := some (ColumnFamily.fromString s) }

/-- Embeds the setter `BatchScan::reverse`. -/
def BatchScan.set_reverse (b : BatchScan) : BatchScan :=
  { b with reverse := true }

/-- `impl Future for BatchScan` declares `type Item = Vec<KvPair>`. -/
def BatchScan.futureItem : AssocType := AssocType.vecKvPairT

/-- `impl Future for BatchScan` declares `type Error = ()`. -/
def BatchScan.futureError : AssocType := AssocType.unitT

/-- Embeds `pub struct DeleteRange`. -/
structure DeleteRange where
  client : Client
  range : KeyRange
  cf : Option ColumnFamily
  deriving DecidableEq

/-- Embeds `DeleteRange::new`. -/
def DeleteRange.new (client : Client) (range : KeyRange) : DeleteRange :=
  DeleteRange.mk client range none

/-- Embeds the setter `DeleteRange::cf`. -/
def DeleteRange.set_cf (d : DeleteRange) (s : String) : DeleteRange :=
  { d with cf := some (ColumnFamily.fromString s) }

/-- `impl Future for DeleteRange` declares `type Item = ()`. -/
def DeleteRange.futureItem : AssocType := AssocType.unitT

/-- `impl Future for DeleteRange` declares `type Error = ()`. -/
def DeleteRange.futureError : AssocType := AssocType.unitT

/-- Embeds `pub struct Connect`. -/
structure Connect where
  config : Config
  deriving DecidableEq

/-- Embeds `Connect::new`. -/
def Connect.new (config : Config) : Connect :=
  Connect.mk config

/-- `impl Future for Connect` declares `type Item = Client`. -/
def Connect.futureItem : AssocType := AssocType.clientT

/-- `impl Future for Connect` declares `type Error = Error`. -/
def Connect.futureError : AssocType := AssocType.errorT

/-- Embeds `Client::new` (an associated function, no receiver):
`Connect::new(config.clone())`. -/
def Client.new (config : Config) : Connect :=
  Connect.new config

/-- Embeds `Client::get`: `Get::new(self, key.into())`. -/
def Client.get (c : Client) (key : KeyRef) : Get :=
  Get.new c key

/-- Embeds `Client::batch_get`: stores the unconsumed iterator
`keys.into_iter().map(Into::into)`; nothing is collected. -/
def Client.batch_get (c : Client) (keys : List Key) : BatchGet :=
  BatchGet.new c (MapIter.mk keys)

/-- Embeds `Client::put`: `Put::new(self, key.into(), value.into())`. -/
def Client.put (c : Client) (key : Key) (value : Value) : Put :=
  Put.new c key value

/-- Embeds `Client::batch_put`:
`BatchPut::new(self, pairs.into_iter().map(Into::into).collect())` — the
input items are converted and collected into a vector at construction. -/
def Client.batch_put (c : Client) (pairs : List PairLike) : BatchPut :=
  BatchPut.new c (pairs.map PairLike.intoKvPair)

/-- Embeds `Client::delete`: `Delete::new(self, key.into())`. -/
def Client.delete (c : Client) (key : KeyRef) : Delete :=
  Delete.new c key

/-- Embeds `Client::batch_delete`: stores the unconsumed iterator
`keys.into_iter().map(Into::into)`. -/
def Client.batch_delete (c : Client) (keys : List Key) : BatchDelete :=
  BatchDelete.new c (MapIter.mk keys)

/-- Embeds `Client::scan`: `Scan::new(self, range, limit.into().unwrap_or(MAX))`. -/
def Client.scan (c : Client) (range : KeyRange) (limit : Option Nat) : Scan :=
  Scan.new c range (limit.getD u32MAX)

/-- Embeds `Client::batch_scan`:
`BatchScan::new(self, ranges.into_iter(), each_limit.into().unwrap_or(MAX))`. -/
def Client.batch_scan (c : Client) (ranges : List KeyRange)
    (each_limit : Option Nat) : BatchScan :=
  BatchScan.new c ranges (each_limit.getD u32MAX)

/-- Embeds `Client::delete_range`: `DeleteRange::new(self, range)`. -/
def Client.delete_range (c : Client) (range : KeyRange) : DeleteRange :=
  DeleteRange.new c range

/-
Dispatch semantics.  Every `poll` body in src/src/raw.rs is
`unimplemented!()`, so what an awaited operation yields is modelled from
the spec (sections 4.3 to 4.8 and 7); the definitions below say so.
-/

/-- Modelled from the spec: the error kinds of section 7 (the library
`Error` type itself lives outside raw.rs). -/
inductive RawError where
  | connection
  | notFound
  | transport
  | partialBatch
  deriving DecidableEq

/-- One binding of the partitioned store the dispatcher executes against. -/
structure StoreEntry where
  cf : ColumnFamily
  key : Key
  value : Value
  deriving DecidableEq

/-- Modelled from the spec: the partitioned key-value store, as a finite
list of bindings; the visible binding of a key is the first matching
entry. -/
abbrev Store := List StoreEntry

/-- The fixed, well-known default partition name (`default` per the
`ColumnFamily` documentation in raw.rs). -/
def defaultCf : ColumnFamily := ColumnFamily.mk "default"

/-- The partition an operation targets: the selector when set, else the
default partition. -/
def effectiveCf (cf : Option ColumnFamily) : ColumnFamily :=
  cf.getD defaultCf

/-- The value bound to a key in a partition, if any. -/
def storeLookup (st : Store) (cf : ColumnFamily) (k : Key) : Option Value :=
  (st.find? (fun e => e.cf == cf && e.key == k)).map StoreEntry.value

/-- Modelled from the spec (4.3): awaiting a `Get` resolves to the value
at the key in the effective partition, fails with not-found when the key
has no entry, and a dispatch failure (the Boolean argument) is surfaced
as a transport error. -/
def Get.resolve (st : Store) (transportFail : Bool) (g : Get) :
    Except RawError Value :=
  if transportFail then Except.error RawError.transport
  else
    match storeLookup st (effectiveCf g.cf) g.key with
    | some v => Except.ok v
    | none => Except.error RawError.notFound

/-- Modelled from the spec (4.4): awaiting a `Put` durably records the
value at the key in the effective partition, last write wins. -/
def Put.resolve (st : Store) (p : Put) : Store :=
  StoreEntry.mk (effectiveCf p.cf) p.key p.value :: st

/-- Byte-wise (lexicographic) order on store entries by key, the order a
scan produces. -/
def entryLe (p q : Key × Value) : Prop := p.1 ≤ q.1

instance : DecidableRel entryLe :=
  fun p q => inferInstanceAs (Decidable (p.1 ≤ q.1))

instance : IsTotal (Key × Value) entryLe :=
  ⟨fun a b => le_total a.1 b.1⟩

instance : IsTrans (Key × Value) entryLe :=
  ⟨fun _ _ _ h h2 => le_trans h h2⟩

/-- The visible bindings: keep the first entry of each key, drop shadowed
ones (and anything whose key is in `seen`). -/
def dedupKeys (seen : List Key) : List (Key × Value) → List (Key × Value)
  | [] => []
  | p :: rest =>
      if p.1 ∈ seen then dedupKeys seen rest
      else p :: dedupKeys (p.1 :: seen) rest

/-- The visible (key, value) bindings of one partition. -/
def cfEntries (st : Store) (cf : ColumnFamily) : List (Key × Value) :=
  dedupKeys [] ((st.filter (fun e => e.cf == cf)).map (fun e => (e.key, e.value)))

/-- Modelled from the spec (4.6): the partition's bindings within the
bound pair, sorted ascending by key, descending instead when `reverse`
is set. -/
def Scan.ordered (st : Store) (s : Scan) : List (Key × Value) :=
  let sorted := List.insertionSort entryLe
    ((cfEntries st (effectiveCf s.cf)).filter (fun p => s.range.contains p.1))
  if s.reverse then sorted.reverse else sorted

/-- Modelled from the spec (4.6): awaiting a `Scan` resolves to the
in-range bindings in the active order, truncated to at most `limit`
entries; with `key_only` set each result value carries no payload. -/
def Scan.resolve (st : Store) (s : Scan) : List KvPair :=
  ((Scan.ordered st s).take s.limit).map
    (fun p => KvPair.mk p.1 (if s.key_only then [] else p.2))

/-- Any record the dedup keeps was already among the input bindings. -/
theorem mem_of_mem_dedupKeys {p : Key × Value} :
    ∀ {seen : List Key} {l : List (Key × Value)}, p ∈ dedupKeys seen l → p ∈ l := by
  intro seen l
  induction l generalizing seen with
  | nil => simp [dedupKeys]
  | cons q rest ih =>
    simp only [dedupKeys]
    split
    · intro h
      exact List.mem_cons_of_mem _ (ih h)
    · intro h
      rcases List.mem_cons.mp h with h | h
      · exact h ▸ List.mem_cons_self _ _
      · exact List.mem_cons_of_mem _ (ih h)

/-- Every entry an ordered scan enumerates lies within the scan's bound pair. -/
theorem mem_ordered_contains {st : Store} {s : Scan} {e : Key × Value}
    (h : e ∈ Scan.ordered st s) : s.range.contains e.1 = true := by
  unfold Scan.ordered at h
  cases hr : s.reverse <;> simp only [hr] at h <;> simp at h <;> exact h.2

/-- An ordered scan is pairwise ascending by key, descending when
`reverse` is set. -/
theorem ordered_pairwise (st : Store) (s : Scan) :
    List.Pairwise (fun p q : Key × Value =>
      if s.reverse = true then q.1 ≤ p.1 else p.1 ≤ q.1) (Scan.ordered st s) := by
  unfold Scan.ordered
  have hs := List.sorted_insertionSort entryLe
    ((cfEntries st (effectiveCf s.cf)).filter (fun p => s.range.contains p.1))
  cases hr : s.reverse
  · simp only [hr, Bool.false_eq_true, if_false, ite_false]
    exact hs
  · simp only [hr, if_true, ite_true]
    exact List.pairwise_reverse.mpr hs

/-- C1: `Client::scan(range, limit)` builds a `Scan` whose `limit` field
is the given value when one is supplied and `u32::MAX` (2^32 - 1) when
the argument is `None`; `Client::batch_scan` treats `each_limit` the
same way. -/
theorem C1_scan_limit_default (c : Client) (r : KeyRange) (rs : List KeyRange)
    (n : Nat) :
    (Client.scan c r (some n)).limit = n ∧
    (Client.scan c r none).limit = u32MAX ∧
    u32MAX = 2 ^ 32 - 1 ∧
    (Client.batch_scan c rs (some n)).each_limit = n ∧
    (Client.batch_scan c rs none).each_limit = u32MAX :=
  ⟨rfl, rfl, by norm_num [u32MAX], rfl, rfl⟩

/-- C2 counterpart on the code: `impl Future for BatchGet` declares
`type Item = ()` (and `type Error = ()`), not a collection of key/value
pairs; `Scan` shows what a pair-collection item type looks like
(`Vec<KvPair>`). An awaited `BatchGet` therefore cannot resolve to the
subset of (key, value) pairs found among the given keys. -/
theorem C2_batchget_item_is_unit :
    BatchGet.futureItem = AssocType.unitT ∧
    BatchGet.futureItem ≠ AssocType.vecKvPairT ∧
    BatchGet.futureError = AssocType.unitT ∧
    Scan.futureItem = AssocType.vecKvPairT := by
  decide

/-- C3 counterpart on the code: the failure channel of Put, BatchPut,
Delete, BatchDelete, Scan, BatchScan and DeleteRange is the unit type
`()`, which cannot carry a typed error value distinguishing the defined
error kinds; only Get and Connect declare `type Error = Error`. -/
theorem C3_error_channels_untyped :
    Put.futureError = AssocType.unitT ∧
    BatchPut.futureError = AssocType.unitT ∧
    Delete.futureError = AssocType.unitT ∧
    BatchDelete.futureError = AssocType.unitT ∧
    Scan.futureError = AssocType.unitT ∧
    BatchScan.futureError = AssocType.unitT ∧
    DeleteRange.futureError = AssocType.unitT ∧
    Get.futureError = AssocType.errorT ∧
    Connect.futureError = AssocType.errorT ∧
    Put.futureError ≠ Get.futureError := by
  decide

/-- C4: every one of the nine operation builders offers the optional
column-family selector; a freshly constructed builder has it unset
(`None`), and setting it with a string stores that string verbatim
(the `From<T: ToString>` conversion is the identity on strings), with
no validation at construction time. -/
theorem C4_cf_selector_on_every_builder (c : Client) (k : Key) (v : Value)
    (ks : List Key) (ps : List PairLike) (r : KeyRange) (rs : List KeyRange)
    (lim : Option Nat) (s : String) :
    (Client.get c k).cf = none ∧
    ((Client.get c k).set_cf s).cf = some (ColumnFamily.mk s) ∧
    (Client.batch_get c ks).cf = none ∧
    ((Client.batch_get c ks).set_cf s).cf = some (ColumnFamily.mk s) ∧
    (Client.put c k v).cf = none ∧
    ((Client.put c k v).set_cf s).cf = some (ColumnFamily.mk s) ∧
    (Client.batch_put c ps).cf = none ∧
    ((Client.batch_put c ps).set_cf s).cf = some (ColumnFamily.mk s) ∧
    (Client.delete c k).cf = none ∧
    ((Client.delete c k).set_cf s).cf = some (ColumnFamily.mk s) ∧
    (Client.batch_delete c ks).cf = none ∧
    ((Client.batch_delete c ks).set_cf s).cf = some (ColumnFamily.mk s) ∧
    (Client.scan c r lim).cf = none ∧
    ((Client.scan c r lim).set_cf s).cf = some (ColumnFamily.mk s) ∧
    (Client.batch_scan c rs lim).cf = none ∧
    ((Client.batch_scan c rs lim).set_cf s).cf = some (ColumnFamily.mk s) ∧
    (Client.delete_range c r).cf = none ∧
    ((Client.delete_range c r).set_cf s).cf = some (ColumnFamily.mk s) ∧
    ColumnFamily.fromString s = ColumnFamily.mk s :=
  ⟨rfl, rfl, rfl, rfl, rfl, rfl, rfl, rfl, rfl, rfl, rfl, rfl, rfl, rfl, rfl,
   rfl, rfl, rfl, rfl⟩

/-- C5: each constructor method on `Client` is a pure function (no I/O in
the embedding) returning a builder populated exactly with the given
mandatory parameters, the column-family selector unset and the
kind-specific flags (`key_only`, `reverse`, default limit) at their
defaults. -/
theorem C5_constructors_populate_builders (c : Client) (k : Key) (v : Value)
    (ks : List Key) (ps : List PairLike) (r : KeyRange) (rs : List KeyRange)
    (lim : Option Nat) :
    Client.get c k = Get.mk c k none ∧
    Client.batch_get c ks = BatchGet.mk c (MapIter.mk ks) none ∧
    Client.put c k v = Put.mk c k v none ∧
    Client.batch_put c ps = BatchPut.mk c (ps.map PairLike.intoKvPair) none ∧
    Client.delete c k = Delete.mk c k none ∧
    Client.batch_delete c ks = BatchDelete.mk c (MapIter.mk ks) none ∧
    Client.scan c r lim = Scan.mk c r (lim.getD u32MAX) false none false ∧
    Client.batch_scan c rs lim =
      BatchScan.mk c rs (lim.getD u32MAX) false none false ∧
    Client.delete_range c r = DeleteRange.mk c r none :=
  ⟨rfl, rfl, rfl, rfl, rfl, rfl, rfl, rfl, rfl⟩

/-- C9: each setter on an already-built `Scan` changes only its own field
(`cf` to `Some` of the argument, `key_only` or `reverse` to `true`) and
leaves the range, limit, client and the other configuration fields
unchanged; the same frame property holds for `BatchScan`'s three setters
and for the `cf` setter of every other builder. -/
theorem C9_setter_frame (sc : Scan) (bs : BatchScan) (g : Get) (bg : BatchGet)
    (p : Put) (bp : BatchPut) (d : Delete) (bd : BatchDelete) (dr : DeleteRange)
    (s : String) :
    (sc.set_cf s) = Scan.mk sc.client sc.range sc.limit sc.key_only
      (some (ColumnFamily.fromString s)) sc.reverse ∧
    (sc.set_key_only) = Scan.mk sc.client sc.range sc.limit true sc.cf
      sc.reverse ∧
    (sc.set_reverse) = Scan.mk sc.client sc.range sc.limit sc.key_only
      sc.cf true ∧
    (bs.set_cf s) = BatchScan.mk bs.client bs.ranges bs.each_limit bs.key_only
      (some (ColumnFamily.fromString s)) bs.reverse ∧
    (bs.set_key_only) = BatchScan.mk bs.client bs.ranges bs.each_limit true
      bs.cf bs.reverse ∧
    (bs.set_reverse) = BatchScan.mk bs.client bs.ranges bs.each_limit
      bs.key_only bs.cf true ∧
    (g.set_cf s) = Get.mk g.client g.key (some (ColumnFamily.fromString s)) ∧
    (bg.set_cf s) = BatchGet.mk bg.client bg.keys
      (some (ColumnFamily.fromString s)) ∧
    (p.set_cf s) = Put.mk p.client p.key p.value
      (some (ColumnFamily.fromString s)) ∧
    (bp.set_cf s) = BatchPut.mk bp.client bp.pairs
      (some (ColumnFamily.fromString s)) ∧
    (d.set_cf s) = Delete.mk d.client d.key
      (some (ColumnFamily.fromString s)) ∧
    (bd.set_cf s) = BatchDelete.mk bd.client bd.keys
      (some (ColumnFamily.fromString s)) ∧
    (dr.set_cf s) = DeleteRange.mk dr.client dr.range
      (some (ColumnFamily.fromString s)) :=
  ⟨rfl, rfl, rfl, rfl, rfl, rfl, rfl, rfl, rfl, rfl, rfl, rfl, rfl⟩

/-- C10: `Client::batch_put` eagerly converts each input item to a
`KvPair` and collects the results into a vector at construction,
preserving input order and multiplicity (position `i` of the stored
vector is the conversion of input position `i`, duplicates included);
`batch_get` and `batch_delete` instead store their key sequence as an
unconsumed iterator (nothing converted or collected). -/
theorem C10_batchput_eager_collection (c : Client) (ps : List PairLike)
    (ks : List Key) (i : Nat) :
    (Client.batch_put c ps).pairs = ps.map PairLike.intoKvPair ∧
    (Client.batch_put c ps).pairs.length = ps.length ∧
    (Client.batch_put c ps).pairs[i]? = (ps[i]?).map PairLike.intoKvPair ∧
    (Client.batch_get c ks).keys = MapIter.mk ks ∧
    (Client.batch_delete c ks).keys = MapIter.mk ks :=
  ⟨rfl, by simp [Client.batch_put, BatchPut.new],
   by simp [Client.batch_put, BatchPut.new, List.getElem?_map], rfl, rfl⟩

/-- C6: awaiting a `Get` either resolves to the value bound to the key in
the effective partition, or fails with not-found when the key has no
entry, or fails with a transport error on dispatch failure; per the
source's `impl Future for Get`, its success type is `Value` and its
failure type is the library error type. -/
theorem C6_get_contract (st : Store) (tf : Bool) (g : Get) :
    Get.futureItem = AssocType.valueT ∧
    Get.futureError = AssocType.errorT ∧
    ((tf = true ∧ Get.resolve st tf g = Except.error RawError.transport) ∨
     (∃ v, storeLookup st (effectiveCf g.cf) g.key = some v ∧
        Get.resolve st tf g = Except.ok v) ∨
     (storeLookup st (effectiveCf g.cf) g.key = none ∧
        Get.resolve st tf g = Except.error RawError.notFound)) := by
  refine ⟨rfl, rfl, ?_⟩
  cases tf
  · cases hl : storeLookup st (effectiveCf g.cf) g.key
    · exact Or.inr (Or.inr ⟨rfl, by simp [Get.resolve, hl]⟩)
    · exact Or.inr (Or.inl ⟨_, rfl, by simp [Get.resolve, hl]⟩)
  · exact Or.inl ⟨rfl, by simp [Get.resolve]⟩

/-- C7: a resolved `Scan` yields only pairs whose keys lie within the
bound pair (each side's inclusivity respected), at most `limit` of them,
pairwise ascending by key unless `reverse` is set (then descending); and
scanning an empty range (here `Included a` to `Excluded a`) yields the
empty sequence, not an error. -/
theorem C7_scan_contract (st : Store) (s : Scan) (a : Key) :
    (Scan.resolve st s).all (fun p => s.range.contains p.key) = true ∧
    (Scan.resolve st s).length ≤ s.limit ∧
    List.Pairwise
      (fun p q : KvPair => if s.reverse = true then q.key ≤ p.key else p.key ≤ q.key)
      (Scan.resolve st s) ∧
    Scan.resolve st
      { s with range := KeyRange.mk (Bound.Included a) (Bound.Excluded a) } = [] := by
  refine ⟨?_, ?_, ?_, ?_⟩
  · rw [List.all_eq_true]
    intro p hp
    unfold Scan.resolve at hp
    obtain ⟨e, he, rfl⟩ := List.mem_map.mp hp
    exact mem_ordered_contains (List.mem_of_mem_take he)
  · unfold Scan.resolve
    rw [List.length_map, List.length_take]
    exact min_le_left _ _
  · unfold Scan.resolve
    refine List.Pairwise.map _ (fun x y h => h)
      ((ordered_pairwise st s).sublist (List.take_sublist _ _))
  · unfold Scan.resolve Scan.ordered
    have hnil : (cfEntries st (effectiveCf s.cf)).filter
        (fun p => (KeyRange.mk (Bound.Included a) (Bound.Excluded a)).contains p.1)
          = [] := by
      rw [List.filter_eq_nil_iff]
      intro p hp
      simp only [KeyRange.contains, Bool.and_eq_true, decide_eq_true_eq, not_and]
      intro h1 h2
      exact absurd h2 (not_lt.mpr h1)
    cases hr : s.reverse <;> simp [hr, hnil]

/-- C8: for all keys and values, awaiting `put(k, v)` and then awaiting
`get(k)` on the same partition (the default one, or any explicitly
selected one) resolves to `v`. -/
theorem C8_put_get_roundtrip (st : Store) (c : Client) (k : Key) (v : Value)
    (p : String) :
    Get.resolve (Put.resolve st (Client.put c k v)) false (Client.get c k)
      = Except.ok v ∧
    Get.resolve (Put.resolve st ((Client.put c k v).set_cf p)) false
      ((Client.get c k).set_cf p) = Except.ok v := by
  constructor <;>
    simp [Get.resolve, Put.resolve, Client.put, Client.get, Put.new, Get.new,
      Put.set_cf, Get.set_cf, storeLookup, List.find?]
